import Mathlib

/-!
Shallow embedding of the fencing-game engine from
`src/src/tot/tasks/fencing_game.py` (class `FencingTask`).

Python integers become `Int`, the optional action-point fields become
`Option Int`, the free-form debuff strings become a closed enumeration,
and the mutable `self.state` dictionary becomes an explicit `GameState`
record threaded through `resolve_turn`.
-/

namespace Fencing

/-- The four actions of the game (`'ATTACK'`, `'DEFEND'`, `'KICKS'`, `'FEINT'`). -/
inductive Action
  | ATTACK
  | DEFEND
  | KICKS
  | FEINT
  deriving DecidableEq, Repr, Fintype

/-- The four debuff strings that occur in the source
(`'Cannot Attack'`, `'Cannot Defend'`, `'Cannot Kick'`, `'Cannot Feint'`). -/
inductive Debuff
  | CannotAttack
  | CannotDefend
  | CannotKick
  | CannotFeint
  deriving DecidableEq, Repr, Fintype

/-- The four recognized game modes (keys of `FencingTask.GAME_MODES`). -/
inductive GameMode
  | standard
  | no_kick
  | first_blood
  | action_points
  deriving DecidableEq, Repr, Fintype

/-- The three win-condition policy strings of the source
(`'hp_zero'`, `'first_damage'`, `'ap_zero_or_hp_zero'`). -/
inductive WinCondition
  | hp_zero
  | first_damage
  | ap_zero_or_hp_zero
  deriving DecidableEq, Repr, Fintype

/-- One entry of the `GAME_MODES` dictionary (the `description` string is
display-only and omitted). `action_costs` is `None` in the three modes
without action points, a cost function in `action_points` mode. -/
structure GameConfig where
  hp : Int
  action_points : Option Int
  actions : List Action
  action_costs : Option (Action → Int)
  win_condition : WinCondition
  debuffs : Bool

/-- The `action_costs` dictionary of `action_points` mode:
`{'ATTACK': 2, 'DEFEND': 1, 'KICKS': 2, 'FEINT': 1}`. -/
def apCosts : Action → Int
  | Action.ATTACK => 2
  | Action.DEFEND => 1
  | Action.KICKS => 2
  | Action.FEINT => 1

/-- The `FencingTask.GAME_MODES` registry. -/
def GAME_MODES : GameMode → GameConfig
  | GameMode.standard =>
      { hp := 3
        action_points := none
        actions := [Action.ATTACK, Action.DEFEND, Action.KICKS, Action.FEINT]
        action_costs := none
        win_condition := WinCondition.hp_zero
        debuffs := true }
  | GameMode.no_kick =>
      { hp := 3
        action_points := none
        actions := [Action.ATTACK, Action.DEFEND, Action.FEINT]
        action_costs := none
        win_condition := WinCondition.hp_zero
        debuffs := true }
  | GameMode.first_blood =>
      { hp := 3
        action_points := none
        actions := [Action.ATTACK, Action.DEFEND, Action.KICKS, Action.FEINT]
        action_costs := none
        win_condition := WinCondition.first_damage
        debuffs := true }
  | GameMode.action_points =>
      { hp := 3
        action_points := some 5
        actions := [Action.ATTACK, Action.DEFEND, Action.KICKS, Action.FEINT]
        action_costs := some apCosts
        win_condition := WinCondition.ap_zero_or_hp_zero
        debuffs := false }

/-- The mutable `self.state` dictionary of `FencingTask`. -/
structure GameState where
  p1_hp : Int
  p2_hp : Int
  p1_ap : Option Int
  p2_ap : Option Int
  p1_debuff : Option Debuff
  p2_debuff : Option Debuff
  turn : Nat
  first_damage_dealt : Bool
  deriving DecidableEq, Repr

/-- One element of `self.game_history` (the dictionary appended at the end
of `resolve_turn`). -/
structure HistoryEntry where
  turn : Nat
  p1_action : Action
  p2_action : Action
  p1_hp : Int
  p2_hp : Int
  p1_ap : Option Int
  p2_ap : Option Int
  p1_debuff : Option Debuff
  p2_debuff : Option Debuff
  deriving DecidableEq, Repr

/-- A `FencingTask` instance: the selected mode plus the mutable state and
history (the config is recovered from the mode via `GAME_MODES`). -/
structure FencingTask where
  game_mode : GameMode
  state : GameState
  game_history : List HistoryEntry
  deriving DecidableEq, Repr

/-- Constructor `FencingTask.__init__` (and identically `reset`): fresh state for the
selected mode. Mode validation is unrepresentable here since `GameMode` is
a closed enumeration. -/
def initTask (game_mode : GameMode) : FencingTask :=
  let config := GAME_MODES game_mode
  { game_mode := game_mode
    state :=
      { p1_hp := config.hp
        p2_hp := config.hp
        p1_ap := config.action_points
        p2_ap := config.action_points
        p1_debuff := none
        p2_debuff := none
        turn := 0
        first_damage_dealt := false }
    game_history := [] }

/-- Embedding of `FencingTask.get_available_actions`. Python's guarded
`available_actions.remove(x)` (remove first occurrence when present) is
`List.erase`. In states reachable in AP mode the AP field is always an
integer (Python would raise a `TypeError` on `cost <= None`); `Option.getD 0`
is a total stand-in for that integer read. -/
def get_available_actions (t : FencingTask) (player_id : Nat) : List Action :=
  let config := GAME_MODES t.game_mode
  let available0 := config.actions
  let my_debuff := if player_id = 1 then t.state.p1_debuff else t.state.p2_debuff
  let my_ap := if player_id = 1 then t.state.p1_ap else t.state.p2_ap
  -- Remove actions blocked by debuffs (if debuffs enabled)
  let available1 :=
    if config.debuffs then
      match my_debuff with
      | some Debuff.CannotAttack => available0.erase Action.ATTACK
      | some Debuff.CannotDefend => available0.erase Action.DEFEND
      | some Debuff.CannotKick => available0.erase Action.KICKS
      | some Debuff.CannotFeint => available0.erase Action.FEINT
      | none => available0
    else available0
  -- Remove actions that cost more AP than available (if using AP mode)
  let available2 :=
    match config.action_points, config.action_costs with
    | some _, some costs => available1.filter (fun a => costs a ≤ my_ap.getD 0)
    | _, _ => available1
  -- 'Ensure at least one action is available': the source returns [] when
  -- the filtered list is empty, otherwise the list itself
  if available2.isEmpty then [] else available2

/-- The effect the rule table of `resolve_turn` computes for one turn:
HP deltas for the two players, the freshly computed debuffs
(`new_p1_debuff` / `new_p2_debuff` locals of the source), and the
`damage_dealt_this_turn` flag. -/
structure RuleEffect where
  p1_hp_delta : Int
  p2_hp_delta : Int
  new_p1_debuff : Option Debuff
  new_p2_debuff : Option Debuff
  damage_dealt : Bool
  deriving DecidableEq, Repr

/-- The fallthrough of the rule table: no HP change, no debuff, no damage. -/
def noEffect : RuleEffect :=
  { p1_hp_delta := 0
    p2_hp_delta := 0
    new_p1_debuff := none
    new_p2_debuff := none
    damage_dealt := false }

/-- The if/elif rule table of `resolve_turn` (lines 154-231 of the source):
the reduced 3-rule cycle when `game_mode == 'no_kick'`, the full 6-rule
system otherwise. Each branch mirrors one Python branch; debuff assignments
happen only `if self.config['debuffs']`, and an unmatched pair falls
through to `noEffect`. -/
def apply_rules (game_mode : GameMode) (debuffs : Bool)
    (p1_action p2_action : Action) : RuleEffect :=
  if game_mode = GameMode.no_kick then
    -- 3-way RPS: ATTACK beats FEINT, DEFEND beats ATTACK, FEINT beats DEFEND
    if p1_action = Action.ATTACK ∧ p2_action = Action.FEINT then
      { noEffect with p2_hp_delta := -1, damage_dealt := true }
    else if p2_action = Action.ATTACK ∧ p1_action = Action.FEINT then
      { noEffect with p1_hp_delta := -1, damage_dealt := true }
    else if p1_action = Action.DEFEND ∧ p2_action = Action.ATTACK then
      { noEffect with
          new_p2_debuff := if debuffs then some Debuff.CannotAttack else none }
    else if p2_action = Action.DEFEND ∧ p1_action = Action.ATTACK then
      { noEffect with
          new_p1_debuff := if debuffs then some Debuff.CannotAttack else none }
    else if p1_action = Action.FEINT ∧ p2_action = Action.DEFEND then
      { noEffect with
          new_p2_debuff := if debuffs then some Debuff.CannotDefend else none }
    else if p2_action = Action.FEINT ∧ p1_action = Action.DEFEND then
      { noEffect with
          new_p1_debuff := if debuffs then some Debuff.CannotDefend else none }
    else noEffect
  else
    -- Standard, first_blood, and action_points modes use full 6-rule system
    if p1_action = Action.ATTACK ∧ p2_action = Action.FEINT then
      { noEffect with p2_hp_delta := -1, damage_dealt := true }
    else if p2_action = Action.ATTACK ∧ p1_action = Action.FEINT then
      { noEffect with p1_hp_delta := -1, damage_dealt := true }
    else if p1_action = Action.FEINT ∧ p2_action = Action.KICKS then
      { noEffect with
          new_p2_debuff := if debuffs then some Debuff.CannotKick else none }
    else if p2_action = Action.FEINT ∧ p1_action = Action.KICKS then
      { noEffect with
          new_p1_debuff := if debuffs then some Debuff.CannotKick else none }
    else if p1_action = Action.KICKS ∧ p2_action = Action.DEFEND then
      { noEffect with p2_hp_delta := -1, damage_dealt := true }
    else if p2_action = Action.KICKS ∧ p1_action = Action.DEFEND then
      { noEffect with p1_hp_delta := -1, damage_dealt := true }
    else if p1_action = Action.DEFEND ∧ p2_action = Action.ATTACK then
      { noEffect with
          new_p2_debuff := if debuffs then some Debuff.CannotAttack else none }
    else if p2_action = Action.DEFEND ∧ p1_action = Action.ATTACK then
      { noEffect with
          new_p1_debuff := if debuffs then some Debuff.CannotAttack else none }
    else if p1_action = Action.ATTACK ∧ p2_action = Action.KICKS then
      { noEffect with
          new_p2_debuff := if debuffs then some Debuff.CannotKick else none }
    else if p2_action = Action.ATTACK ∧ p1_action = Action.KICKS then
      { noEffect with
          new_p1_debuff := if debuffs then some Debuff.CannotKick else none }
    else if p1_action = Action.DEFEND ∧ p2_action = Action.FEINT then
      { noEffect with
          new_p2_debuff := if debuffs then some Debuff.CannotFeint else none }
    else if p2_action = Action.DEFEND ∧ p1_action = Action.FEINT then
      { noEffect with
          new_p1_debuff := if debuffs then some Debuff.CannotFeint else none }
    else noEffect

/-- Embedding of `FencingTask._check_win_condition`, the nested if-chain flattened into
one guard chain with identical semantics. The literal `3` in the first-blood
branch and the `<= 0` AP comparisons are the source's own literals; as in
`get_available_actions`, `Option.getD 0` stands in for the integer Python
reads from the AP field when that comparison actually runs. -/
def check_win_condition (t : FencingTask) : String :=
  let config := GAME_MODES t.game_mode
  let s := t.state
  -- First Blood: Win on first damage dealt
  if config.win_condition = WinCondition.first_damage ∧
      s.first_damage_dealt = true ∧ s.p1_hp < 3 then
    "P2 Wins (First Blood)"
  else if config.win_condition = WinCondition.first_damage ∧
      s.first_damage_dealt = true ∧ s.p2_hp < 3 then
    "P1 Wins (First Blood)"
  -- Action Points mode: Lose if AP reaches 0
  else if config.win_condition = WinCondition.ap_zero_or_hp_zero ∧
      s.p1_ap.getD 0 ≤ 0 ∧ s.p2_ap.getD 0 ≤ 0 then
    "Draw (Both Out of AP)"
  else if config.win_condition = WinCondition.ap_zero_or_hp_zero ∧
      s.p1_ap.getD 0 ≤ 0 then
    "P2 Wins (P1 Out of AP)"
  else if config.win_condition = WinCondition.ap_zero_or_hp_zero ∧
      s.p2_ap.getD 0 ≤ 0 then
    "P1 Wins (P2 Out of AP)"
  -- Standard HP check (applies to all modes)
  else if s.p1_hp ≤ 0 ∧ s.p2_hp ≤ 0 then
    "Draw"
  else if s.p1_hp ≤ 0 then
    "P2 Wins"
  else if s.p2_hp ≤ 0 then
    "P1 Wins"
  else
    "Continue"

/-- Embedding of `FencingTask.resolve_turn`: AP deduction, rule table, debuff overwrite,
first-damage flag, turn increment, history append, win check. Returns the
updated task and the status string. -/
def resolve_turn (t : FencingTask) (p1_action p2_action : Action) :
    FencingTask × String :=
  let config := GAME_MODES t.game_mode
  let s0 := t.state
  -- Deduct action points if using AP mode
  let s1 : GameState :=
    match config.action_points, config.action_costs with
    | some _, some costs =>
        { s0 with
            p1_ap := s0.p1_ap.map (fun ap => ap - costs p1_action)
            p2_ap := s0.p2_ap.map (fun ap => ap - costs p2_action) }
    | _, _ => s0
  -- Apply game rules based on mode
  let eff := apply_rules t.game_mode config.debuffs p1_action p2_action
  let s2 : GameState :=
    { s1 with
        p1_hp := s1.p1_hp + eff.p1_hp_delta
        p2_hp := s1.p2_hp + eff.p2_hp_delta }
  -- Update debuffs (clear old, apply new)
  let s3 : GameState :=
    if config.debuffs then
      { s2 with p1_debuff := eff.new_p1_debuff, p2_debuff := eff.new_p2_debuff }
    else s2
  -- Mark if first damage was dealt (for first_blood mode)
  let s4 : GameState :=
    if eff.damage_dealt then { s3 with first_damage_dealt := true } else s3
  -- Increment turn counter
  let s5 : GameState := { s4 with turn := s4.turn + 1 }
  -- Log this turn
  let entry : HistoryEntry :=
    { turn := s5.turn
      p1_action := p1_action
      p2_action := p2_action
      p1_hp := s5.p1_hp
      p2_hp := s5.p2_hp
      p1_ap := s5.p1_ap
      p2_ap := s5.p2_ap
      p1_debuff := s5.p1_debuff
      p2_debuff := s5.p2_debuff }
  let updated : FencingTask :=
    { t with state := s5, game_history := t.game_history ++ [entry] }
  (updated, check_win_condition updated)

/-- Fold `resolve_turn` over a list of (p1 action, p2 action) pairs, as the
driver loop in `run_fencing.py` does. -/
def run_turns (t : FencingTask) : List (Action × Action) → FencingTask
  | [] => t
  | p :: rest => run_turns (resolve_turn t p.1 p.2).1 rest

/-- The inverse of the debuff-to-forbidden-action mapping used by
`get_available_actions`: the debuff that blocks a given action. -/
def blockingDebuff : Action → Debuff
  | Action.ATTACK => Debuff.CannotAttack
  | Action.DEFEND => Debuff.CannotDefend
  | Action.KICKS => Debuff.CannotKick
  | Action.FEINT => Debuff.CannotFeint

/-- Swap the two players in a rule effect (mirror of an exchange). -/
def swapEffect (e : RuleEffect) : RuleEffect :=
  { p1_hp_delta := e.p2_hp_delta
    p2_hp_delta := e.p1_hp_delta
    new_p1_debuff := e.new_p2_debuff
    new_p2_debuff := e.new_p1_debuff
    damage_dealt := e.damage_dealt }

/-! ### Helper lemmas about the embedded engine -/

/-- The rule table treats identical actions as an explicit fallthrough:
no HP change, no debuff, no damage flag, in every mode. -/
theorem apply_rules_self : ∀ (m : GameMode) (db : Bool) (a : Action),
    apply_rules m db a a = noEffect := by decide

/-- In the three modes using the full 6-rule table, swapping the two
players' actions swaps the computed effect, for every distinct pair. -/
theorem apply_rules_swap : ∀ (m : GameMode) (db : Bool) (a b : Action),
    m ≠ GameMode.no_kick → a ≠ b →
    apply_rules m db b a = swapEffect (apply_rules m db a b) := by decide

/-- Every rule-table outcome changes at most one player's HP, and only
by exactly one point of damage. -/
theorem apply_rules_delta_cases : ∀ (m : GameMode) (db : Bool) (a b : Action),
    ((apply_rules m db a b).p1_hp_delta = 0 ∧ (apply_rules m db a b).p2_hp_delta = 0) ∨
    ((apply_rules m db a b).p1_hp_delta = -1 ∧ (apply_rules m db a b).p2_hp_delta = 0) ∨
    ((apply_rules m db a b).p1_hp_delta = 0 ∧ (apply_rules m db a b).p2_hp_delta = -1) := by
  decide

/-- Resolving a turn never changes the selected game mode. -/
theorem resolve_turn_game_mode (t : FencingTask) (a b : Action) :
    (resolve_turn t a b).1.game_mode = t.game_mode := by
  rcases t with ⟨m, s, h⟩
  cases m <;> rfl

/-- The HP fields after `resolve_turn` are the old ones plus the rule-table
deltas. -/
theorem resolve_turn_hp (t : FencingTask) (a b : Action) :
    (resolve_turn t a b).1.state.p1_hp =
      t.state.p1_hp +
        (apply_rules t.game_mode (GAME_MODES t.game_mode).debuffs a b).p1_hp_delta ∧
    (resolve_turn t a b).1.state.p2_hp =
      t.state.p2_hp +
        (apply_rules t.game_mode (GAME_MODES t.game_mode).debuffs a b).p2_hp_delta := by
  rcases t with ⟨m, s, h⟩
  cases m <;> simp only [resolve_turn, GAME_MODES] <;> split <;> simp

/-- The turn counter increments by exactly one per `resolve_turn`. -/
theorem resolve_turn_turn (t : FencingTask) (a b : Action) :
    (resolve_turn t a b).1.state.turn = t.state.turn + 1 := by
  rcases t with ⟨m, s, h⟩
  cases m <;> simp only [resolve_turn, GAME_MODES] <;> split <;> simp

/-- Resolving a turn appends exactly one history entry, whose `turn` field is
the incremented counter; the existing entries are untouched. -/
theorem resolve_turn_history (t : FencingTask) (a b : Action) :
    ∃ e : HistoryEntry,
      (resolve_turn t a b).1.game_history = t.game_history ++ [e] ∧
      e.turn = t.state.turn + 1 := by
  rcases t with ⟨m, s, h⟩
  cases m <;> simp only [resolve_turn, GAME_MODES] <;> split <;> exact ⟨_, rfl, rfl⟩

/-- The debuff fields after `resolve_turn`: overwritten with the freshly
computed values when the mode enables debuffs, untouched otherwise. -/
theorem resolve_turn_debuff (t : FencingTask) (a b : Action) :
    ((GAME_MODES t.game_mode).debuffs = true →
      (resolve_turn t a b).1.state.p1_debuff =
        (apply_rules t.game_mode (GAME_MODES t.game_mode).debuffs a b).new_p1_debuff ∧
      (resolve_turn t a b).1.state.p2_debuff =
        (apply_rules t.game_mode (GAME_MODES t.game_mode).debuffs a b).new_p2_debuff) ∧
    ((GAME_MODES t.game_mode).debuffs = false →
      (resolve_turn t a b).1.state.p1_debuff = t.state.p1_debuff ∧
      (resolve_turn t a b).1.state.p2_debuff = t.state.p2_debuff) := by
  rcases t with ⟨m, s, h⟩
  cases m <;> simp only [resolve_turn, GAME_MODES] <;> split <;> simp

/-- The AP fields after `resolve_turn`: cost-deducted in `action_points`
mode, untouched in the three modes without action points. -/
theorem resolve_turn_ap (t : FencingTask) (a b : Action) :
    (t.game_mode = GameMode.action_points →
      (resolve_turn t a b).1.state.p1_ap = t.state.p1_ap.map (fun ap => ap - apCosts a) ∧
      (resolve_turn t a b).1.state.p2_ap = t.state.p2_ap.map (fun ap => ap - apCosts b)) ∧
    (t.game_mode ≠ GameMode.action_points →
      (resolve_turn t a b).1.state.p1_ap = t.state.p1_ap ∧
      (resolve_turn t a b).1.state.p2_ap = t.state.p2_ap) := by
  rcases t with ⟨m, s, h⟩
  cases m <;> simp only [resolve_turn, GAME_MODES] <;> split <;> simp

/-! ### Claim theorems -/

/-- C1: Rule-table symmetry: in every mode using the full 4-action rule
table (every mode except `no_kick`), for every pair of distinct actions,
resolving `(a, b)` and resolving `(b, a)` from the same starting state
produce mirrored effects: the rule-table outcome is the player-swap of the
other ordering's outcome, and in particular each player's HP delta under
one ordering equals the other player's HP delta under the other. -/
theorem claim_rule_table_symmetry (t : FencingTask) (a b : Action)
    (hm : t.game_mode ≠ GameMode.no_kick) (hab : a ≠ b) :
    apply_rules t.game_mode (GAME_MODES t.game_mode).debuffs b a
      = swapEffect (apply_rules t.game_mode (GAME_MODES t.game_mode).debuffs a b) ∧
    (resolve_turn t b a).1.state.p1_hp - t.state.p1_hp
      = (resolve_turn t a b).1.state.p2_hp - t.state.p2_hp ∧
    (resolve_turn t b a).1.state.p2_hp - t.state.p2_hp
      = (resolve_turn t a b).1.state.p1_hp - t.state.p1_hp := by
  have hsw := apply_rules_swap t.game_mode (GAME_MODES t.game_mode).debuffs a b hm hab
  have h1 := resolve_turn_hp t a b
  have h2 := resolve_turn_hp t b a
  refine ⟨hsw, ?_, ?_⟩
  · rw [h2.1, h1.2, hsw]
    simp only [swapEffect]
    omega
  · rw [h2.2, h1.1, hsw]
    simp only [swapEffect]
    omega

/-- Witness for C1: standard mode, the pair (ATTACK, FEINT). -/
theorem claim_rule_table_symmetry_witness :
    apply_rules GameMode.standard (GAME_MODES GameMode.standard).debuffs
        Action.FEINT Action.ATTACK
      = swapEffect (apply_rules GameMode.standard (GAME_MODES GameMode.standard).debuffs
          Action.ATTACK Action.FEINT) :=
  (claim_rule_table_symmetry (initTask GameMode.standard) Action.ATTACK Action.FEINT
    (by decide) (by decide)).1

/-- C2: Identical-action no-op: in every mode, resolving `(a, a)` changes
neither player's HP and sets no new debuff (the rule table yields the
explicit fallthrough effect; debuff-enabled modes clear the debuff fields
to `none`, `action_points` mode leaves them untouched), while the AP cost
is still deducted in `action_points` mode, the turn counter still
increments, and a history entry is still appended. -/
theorem claim_identical_action_noop (t : FencingTask) (a : Action) :
    (resolve_turn t a a).1.state.p1_hp = t.state.p1_hp ∧
    (resolve_turn t a a).1.state.p2_hp = t.state.p2_hp ∧
    apply_rules t.game_mode (GAME_MODES t.game_mode).debuffs a a = noEffect ∧
    ((GAME_MODES t.game_mode).debuffs = true →
      (resolve_turn t a a).1.state.p1_debuff = none ∧
      (resolve_turn t a a).1.state.p2_debuff = none) ∧
    ((GAME_MODES t.game_mode).debuffs = false →
      (resolve_turn t a a).1.state.p1_debuff = t.state.p1_debuff ∧
      (resolve_turn t a a).1.state.p2_debuff = t.state.p2_debuff) ∧
    (resolve_turn t a a).1.state.turn = t.state.turn + 1 ∧
    (resolve_turn t a a).1.game_history.length = t.game_history.length + 1 ∧
    (t.game_mode = GameMode.action_points →
      (resolve_turn t a a).1.state.p1_ap = t.state.p1_ap.map (fun ap => ap - apCosts a) ∧
      (resolve_turn t a a).1.state.p2_ap = t.state.p2_ap.map (fun ap => ap - apCosts a)) := by
  have hself := apply_rules_self t.game_mode (GAME_MODES t.game_mode).debuffs a
  have hhp := resolve_turn_hp t a a
  have hdb := resolve_turn_debuff t a a
  obtain ⟨e, he, -⟩ := resolve_turn_history t a a
  refine ⟨?_, ?_, hself, ?_, hdb.2, resolve_turn_turn t a a, ?_, (resolve_turn_ap t a a).1⟩
  · rw [hhp.1, hself]
    simp [noEffect]
  · rw [hhp.2, hself]
    simp [noEffect]
  · intro h
    have hb1 := (hdb.1 h).1
    have hb2 := (hdb.1 h).2
    rw [hself] at hb1 hb2
    exact ⟨hb1, hb2⟩
  · rw [he]
    simp

/-- C3 (evaluating the code at the failing input): in `no_kick` mode an
illegal KICKS action is not rejected — `resolve_turn` silently resolves
KICKS vs ATTACK as a harmless no-op clash (no HP change, no debuff, status
`Continue`), even though KICKS is never offered by
`get_available_actions` in this mode. -/
theorem claim_no_kick_illegal_action_silent_noop :
    (resolve_turn (initTask GameMode.no_kick) Action.KICKS Action.ATTACK).2 = "Continue" ∧
    (resolve_turn (initTask GameMode.no_kick) Action.KICKS Action.ATTACK).1.state =
      { (initTask GameMode.no_kick).state with turn := 1 } ∧
    get_available_actions (initTask GameMode.no_kick) 1 =
      [Action.ATTACK, Action.DEFEND, Action.FEINT] := by
  refine ⟨rfl, rfl, rfl⟩

/-- C4: First-blood win: from the initial `first_blood` state a single
ATTACK-vs-FEINT exchange immediately returns "P1 Wins (First Blood)" with
both HP still positive; and in general, whenever `first_damage_dealt`
holds in `first_blood` mode and exactly one side's HP is below the mode's
configured starting HP, that side loses. -/
theorem claim_first_blood_win (t : FencingTask)
    (hm : t.game_mode = GameMode.first_blood)
    (hfd : t.state.first_damage_dealt = true) :
    ((resolve_turn (initTask GameMode.first_blood) Action.ATTACK Action.FEINT).2
        = "P1 Wins (First Blood)" ∧
      0 < (resolve_turn (initTask GameMode.first_blood) Action.ATTACK Action.FEINT).1.state.p1_hp ∧
      0 < (resolve_turn (initTask GameMode.first_blood) Action.ATTACK Action.FEINT).1.state.p2_hp) ∧
    (t.state.p1_hp < (GAME_MODES GameMode.first_blood).hp ∧
        ¬ t.state.p2_hp < (GAME_MODES GameMode.first_blood).hp →
      check_win_condition t = "P2 Wins (First Blood)") ∧
    (t.state.p2_hp < (GAME_MODES GameMode.first_blood).hp ∧
        ¬ t.state.p1_hp < (GAME_MODES GameMode.first_blood).hp →
      check_win_condition t = "P1 Wins (First Blood)") := by
  refine ⟨⟨rfl, by decide, by decide⟩, ?_, ?_⟩
  · rintro ⟨hlt, -⟩
    simp only [check_win_condition, hm, GAME_MODES]
    rw [if_pos ⟨trivial, hfd, hlt⟩]
  · rintro ⟨hlt, hge⟩
    simp only [check_win_condition, hm, GAME_MODES]
    rw [if_neg fun h => hge h.2.2, if_pos ⟨trivial, hfd, hlt⟩]

/-- Witness for C4: the post-exchange state itself satisfies the
hypotheses, and player 2 (the damaged side) loses. -/
theorem claim_first_blood_win_witness :
    check_win_condition
        (resolve_turn (initTask GameMode.first_blood) Action.ATTACK Action.FEINT).1
      = "P1 Wins (First Blood)" :=
  (claim_first_blood_win
      (resolve_turn (initTask GameMode.first_blood) Action.ATTACK Action.FEINT).1
      (by decide) (by decide)).2.2 ⟨by decide, by decide⟩

/-- Task in `action_points` mode with both players down to 1 AP (the
concrete scenario of spec property 8, also exercised by
`Test_game_modes.py`: `task.state['p1_ap'] = 1; task.state['p2_ap'] = 1`). -/
def apOneTask : FencingTask :=
  { initTask GameMode.action_points with
      state :=
        { (initTask GameMode.action_points).state with
            p1_ap := some 1, p2_ap := some 1 } }

/-- C5: AP win-condition precedence: in `action_points` mode, with both AP
fields integers, both AP ≤ 0 yields the AP draw, exactly one AP ≤ 0 yields
the win for the other side — in each case regardless of the HP values, so
the AP checks take precedence over the universal HP ≤ 0 check; and
concretely, from both players at 1 AP, DEFEND vs FEINT (each costing 1)
drives both AP to 0, returns "Draw (Both Out of AP)", and changes no
debuff fields. -/
theorem claim_ap_win_precedence (t : FencingTask)
    (hm : t.game_mode = GameMode.action_points)
    (ap1 ap2 : Int) (h1 : t.state.p1_ap = some ap1) (h2 : t.state.p2_ap = some ap2) :
    (ap1 ≤ 0 ∧ ap2 ≤ 0 → check_win_condition t = "Draw (Both Out of AP)") ∧
    (ap1 ≤ 0 ∧ 0 < ap2 → check_win_condition t = "P2 Wins (P1 Out of AP)") ∧
    (0 < ap1 ∧ ap2 ≤ 0 → check_win_condition t = "P1 Wins (P2 Out of AP)") ∧
    ((resolve_turn apOneTask Action.DEFEND Action.FEINT).2 = "Draw (Both Out of AP)" ∧
      (resolve_turn apOneTask Action.DEFEND Action.FEINT).1.state.p1_ap = some 0 ∧
      (resolve_turn apOneTask Action.DEFEND Action.FEINT).1.state.p2_ap = some 0 ∧
      (resolve_turn apOneTask Action.DEFEND Action.FEINT).1.state.p1_debuff
        = apOneTask.state.p1_debuff ∧
      (resolve_turn apOneTask Action.DEFEND Action.FEINT).1.state.p2_debuff
        = apOneTask.state.p2_debuff) := by
  refine ⟨?_, ?_, ?_, by decide⟩ <;> rintro ⟨hA, hB⟩ <;>
    simp only [check_win_condition, hm, GAME_MODES, h1, h2, Option.getD_some]
  · rw [if_neg (fun h => by cases h.1), if_neg (fun h => by cases h.1),
      if_pos ⟨trivial, hA, hB⟩]
  · rw [if_neg (fun h => by cases h.1), if_neg (fun h => by cases h.1),
      if_neg (fun h => absurd h.2.2 (by omega)), if_pos ⟨trivial, hA⟩]
  · rw [if_neg (fun h => by cases h.1), if_neg (fun h => by cases h.1),
      if_neg (fun h => absurd h.2.1 (by omega)),
      if_neg (fun h => absurd h.2 (by omega)), if_pos ⟨trivial, hB⟩]

/-- Witness for C5: a 0-AP/0-AP state in `action_points` mode draws. -/
theorem claim_ap_win_precedence_witness :
    check_win_condition (resolve_turn apOneTask Action.DEFEND Action.FEINT).1
      = "Draw (Both Out of AP)" :=
  (claim_ap_win_precedence (resolve_turn apOneTask Action.DEFEND Action.FEINT).1
      (by decide) 0 0 (by decide) (by decide)).1 ⟨le_refl 0, le_refl 0⟩

/-- Task in `action_points` mode with player 1 at 0 AP: every action costs
more than the remaining AP, so the availability list is empty. -/
def apZeroTask : FencingTask :=
  { initTask GameMode.action_points with
      state := { (initTask GameMode.action_points).state with p1_ap := some 0 } }

/-- The final guard of `get_available_actions` (return `[]` when the
filtered list is empty) preserves sublist-ness. -/
theorem ite_isEmpty_sublist {α : Type} (l L : List α) (h : l.Sublist L) :
    (if l.isEmpty then [] else l).Sublist L := by
  split
  · exact List.nil_sublist _
  · exact h

/-- C6: Availability filtering: for every task state and player,
`get_available_actions` is an order-preserving subsequence of the mode's
legal action list; an action is in it iff it is a legal action of the mode,
not the unique action forbidden by the player's active debuff when debuffs
are enabled, and affordable when action costs are configured; and the
result can be empty (player 1 of `apZeroTask`). -/
theorem claim_availability_filtering (t : FencingTask) (player_id : Nat) :
    (get_available_actions t player_id).Sublist (GAME_MODES t.game_mode).actions ∧
    (∀ a : Action, a ∈ get_available_actions t player_id ↔
      (a ∈ (GAME_MODES t.game_mode).actions ∧
        ((GAME_MODES t.game_mode).debuffs = true →
          (if player_id = 1 then t.state.p1_debuff else t.state.p2_debuff) ≠
            some (blockingDebuff a)) ∧
        (match (GAME_MODES t.game_mode).action_costs with
          | some costs =>
              costs a ≤ (if player_id = 1 then t.state.p1_ap else t.state.p2_ap).getD 0
          | none => True))) ∧
    get_available_actions apZeroTask 1 = [] := by
  obtain ⟨m, s, hist⟩ := t
  obtain ⟨hp1, hp2, ap1, ap2, d1, d2, tn, fd⟩ := s
  refine ⟨?_, ?_, by decide⟩
  · -- order-preserving subsequence of the mode's legal action list
    by_cases hpid : player_id = 1
    · subst hpid
      cases m
      · rcases d1 with _ | d
        · simp [get_available_actions, GAME_MODES]
        · cases d <;> simp [get_available_actions, GAME_MODES]
      · rcases d1 with _ | d
        · simp [get_available_actions, GAME_MODES]
        · cases d <;> simp [get_available_actions, GAME_MODES]
      · rcases d1 with _ | d
        · simp [get_available_actions, GAME_MODES]
        · cases d <;> simp [get_available_actions, GAME_MODES]
      · exact ite_isEmpty_sublist _ _ (List.filter_sublist _)
    · cases m
      · rcases d2 with _ | d
        · simp [get_available_actions, GAME_MODES, hpid]
        · cases d <;> simp [get_available_actions, GAME_MODES, hpid]
      · rcases d2 with _ | d
        · simp [get_available_actions, GAME_MODES, hpid]
        · cases d <;> simp [get_available_actions, GAME_MODES, hpid]
      · rcases d2 with _ | d
        · simp [get_available_actions, GAME_MODES, hpid]
        · cases d <;> simp [get_available_actions, GAME_MODES, hpid]
      · simp only [get_available_actions, GAME_MODES, if_neg hpid]
        exact ite_isEmpty_sublist _ _ (List.filter_sublist _)
  · -- membership characterization
    by_cases hpid : player_id = 1
    · subst hpid
      cases m
      · rcases d1 with _ | d
        · simp [get_available_actions, GAME_MODES, blockingDebuff]
        · cases d <;> simp [get_available_actions, GAME_MODES, blockingDebuff] <;> decide
      · rcases d1 with _ | d
        · simp [get_available_actions, GAME_MODES, blockingDebuff]
        · cases d <;> simp [get_available_actions, GAME_MODES, blockingDebuff] <;> decide
      · rcases d1 with _ | d
        · simp [get_available_actions, GAME_MODES, blockingDebuff]
        · cases d <;> simp [get_available_actions, GAME_MODES, blockingDebuff] <;> decide
      · simp [get_available_actions, GAME_MODES, blockingDebuff, apCosts]
        omega
    · cases m
      · rcases d2 with _ | d
        · simp [get_available_actions, GAME_MODES, blockingDebuff, hpid]
        · cases d <;> simp [get_available_actions, GAME_MODES, blockingDebuff, hpid] <;> decide
      · rcases d2 with _ | d
        · simp [get_available_actions, GAME_MODES, blockingDebuff, hpid]
        · cases d <;> simp [get_available_actions, GAME_MODES, blockingDebuff, hpid] <;> decide
      · rcases d2 with _ | d
        · simp [get_available_actions, GAME_MODES, blockingDebuff, hpid]
        · cases d <;> simp [get_available_actions, GAME_MODES, blockingDebuff, hpid] <;> decide
      · simp [get_available_actions, GAME_MODES, blockingDebuff, apCosts, hpid]
        omega

/-- C7: AP deduction and monotonicity: in `action_points` mode,
`resolve_turn` deducts each action's configured cost from the acting
player's AP regardless of the rule-table outcome (the formulas below hold
for every action pair, no-op clashes included), and since every action has
positive cost each player's AP strictly decreases on every resolved turn
and never regenerates. -/
theorem claim_ap_deduction_monotonic (t : FencingTask) (a b : Action)
    (hm : t.game_mode = GameMode.action_points)
    (ap1 ap2 : Int) (h1 : t.state.p1_ap = some ap1) (h2 : t.state.p2_ap = some ap2) :
    (resolve_turn t a b).1.state.p1_ap = some (ap1 - apCosts a) ∧
    (resolve_turn t a b).1.state.p2_ap = some (ap2 - apCosts b) ∧
    ap1 - apCosts a < ap1 ∧ ap2 - apCosts b < ap2 := by
  have hap := (resolve_turn_ap t a b).1 hm
  have hca : 0 < apCosts a := by cases a <;> decide
  have hcb : 0 < apCosts b := by cases b <;> decide
  refine ⟨?_, ?_, by omega, by omega⟩
  · rw [hap.1, h1]
    rfl
  · rw [hap.2, h2]
    rfl

/-- Witness for C7: the initial `action_points` state (5 AP each),
ATTACK vs DEFEND. -/
theorem claim_ap_deduction_monotonic_witness :
    (resolve_turn (initTask GameMode.action_points) Action.ATTACK Action.DEFEND).1.state.p1_ap
      = some (5 - apCosts Action.ATTACK) :=
  (claim_ap_deduction_monotonic (initTask GameMode.action_points) Action.ATTACK Action.DEFEND
    rfl 5 5 rfl rfl).1

/-- A sequence of resolved turns in `action_points` mode (debuffs disabled)
never changes the debuff fields. -/
theorem run_turns_debuff_ap (pairs : List (Action × Action)) :
    ∀ t : FencingTask, t.game_mode = GameMode.action_points →
      (run_turns t pairs).state.p1_debuff = t.state.p1_debuff ∧
      (run_turns t pairs).state.p2_debuff = t.state.p2_debuff := by
  induction pairs with
  | nil => exact fun t _ => ⟨rfl, rfl⟩
  | cons p rest ih =>
    intro t hm
    have hmode : (resolve_turn t p.1 p.2).1.game_mode = GameMode.action_points := by
      rw [resolve_turn_game_mode, hm]
    have hd := (resolve_turn_debuff t p.1 p.2).2 (by rw [hm]; rfl)
    have hrest := ih (resolve_turn t p.1 p.2).1 hmode
    exact ⟨hrest.1.trans hd.1, hrest.2.trans hd.2⟩

/-- C8: Debuff one-turn lifecycle: whenever debuffs are enabled, each
player's debuff after `resolve_turn` equals exactly the value freshly
computed by that turn's rule table, unconditionally replacing the previous
debuff; when debuffs are disabled the fields are untouched; and in
`action_points` mode (debuffs disabled) both debuff fields stay `none`
after any sequence of resolved turns from the initial state. -/
theorem claim_debuff_lifecycle (t : FencingTask) (a b : Action)
    (pairs : List (Action × Action)) :
    ((GAME_MODES t.game_mode).debuffs = true →
      (resolve_turn t a b).1.state.p1_debuff =
        (apply_rules t.game_mode (GAME_MODES t.game_mode).debuffs a b).new_p1_debuff ∧
      (resolve_turn t a b).1.state.p2_debuff =
        (apply_rules t.game_mode (GAME_MODES t.game_mode).debuffs a b).new_p2_debuff) ∧
    ((GAME_MODES t.game_mode).debuffs = false →
      (resolve_turn t a b).1.state.p1_debuff = t.state.p1_debuff ∧
      (resolve_turn t a b).1.state.p2_debuff = t.state.p2_debuff) ∧
    (GAME_MODES GameMode.action_points).debuffs = false ∧
    (run_turns (initTask GameMode.action_points) pairs).state.p1_debuff = none ∧
    (run_turns (initTask GameMode.action_points) pairs).state.p2_debuff = none := by
  refine ⟨(resolve_turn_debuff t a b).1, (resolve_turn_debuff t a b).2, rfl, ?_, ?_⟩
  · exact (run_turns_debuff_ap pairs (initTask GameMode.action_points) rfl).1
  · exact (run_turns_debuff_ap pairs (initTask GameMode.action_points) rfl).2

/-- Unrolled effect of a turn sequence on counter and history: the counter
advances by the number of turns, and the history grows by a suffix of one
entry per turn whose `turn` fields continue the counter. -/
theorem run_turns_history (pairs : List (Action × Action)) :
    ∀ t : FencingTask,
      (run_turns t pairs).state.turn = t.state.turn + pairs.length ∧
      ∃ suffix : List HistoryEntry,
        (run_turns t pairs).game_history = t.game_history ++ suffix ∧
        suffix.length = pairs.length ∧
        ∀ i (h : i < suffix.length), (suffix.get ⟨i, h⟩).turn = t.state.turn + i + 1 := by
  induction pairs with
  | nil =>
    refine fun t => ⟨rfl, [], by simp [run_turns], rfl, ?_⟩
    intro i h
    exact absurd h (Nat.not_lt_zero i)
  | cons p rest ih =>
    intro t
    obtain ⟨e, he, het⟩ := resolve_turn_history t p.1 p.2
    have htn := resolve_turn_turn t p.1 p.2
    obtain ⟨hturn, suffix, hsfx, hlen, hget⟩ := ih (resolve_turn t p.1 p.2).1
    constructor
    · rw [show run_turns t (p :: rest) = run_turns (resolve_turn t p.1 p.2).1 rest from rfl,
        hturn, htn, List.length_cons]
      omega
    · refine ⟨e :: suffix, ?_, by simp [hlen], ?_⟩
      · rw [show run_turns t (p :: rest) = run_turns (resolve_turn t p.1 p.2).1 rest from rfl,
          hsfx, he]
        simp
      · intro i h
        cases i with
        | zero => simpa using het
        | succ j =>
          have hj : j < suffix.length := by simpa using h
          have := hget j hj
          simp only [List.get_cons_succ]
          rw [this, htn]
          omega

/-- C9: History integrity: after resolving N turns from any initial mode
state, the turn counter equals N, the history log has exactly N entries,
the i-th entry's `turn` field is its 1-based position, and each single
`resolve_turn` appends exactly one entry, leaving prior entries intact. -/
theorem claim_history_integrity (m : GameMode) (pairs : List (Action × Action)) :
    (run_turns (initTask m) pairs).state.turn = pairs.length ∧
    (run_turns (initTask m) pairs).game_history.length = pairs.length ∧
    (∀ i (h : i < (run_turns (initTask m) pairs).game_history.length),
      ((run_turns (initTask m) pairs).game_history.get ⟨i, h⟩).turn = i + 1) ∧
    (∀ (t : FencingTask) (a b : Action), ∃ e,
      (resolve_turn t a b).1.game_history = t.game_history ++ [e]) := by
  obtain ⟨hturn, suffix, hsfx, hlen, hget⟩ := run_turns_history pairs (initTask m)
  have hhist : (run_turns (initTask m) pairs).game_history = suffix := by
    rw [hsfx]
    rfl
  refine ⟨by simpa [initTask] using hturn, by rw [hhist, hlen], ?_, ?_⟩
  · intro i h
    rw [List.get_of_eq hhist ⟨i, h⟩]
    have h2 : i < suffix.length := by
      rw [hhist] at h
      exact h
    simpa [initTask] using hget i h2
  · intro t a b
    obtain ⟨e, he, -⟩ := resolve_turn_history t a b
    exact ⟨e, he⟩

/-- C10: HP-change bound: in every mode and for every action pair, a
single `resolve_turn` either changes no HP, or decreases exactly one
player's HP by exactly 1; it never increases HP and never damages both
players in the same turn. -/
theorem claim_hp_change_bound (t : FencingTask) (a b : Action) :
    ((resolve_turn t a b).1.state.p1_hp = t.state.p1_hp ∧
      (resolve_turn t a b).1.state.p2_hp = t.state.p2_hp) ∨
    ((resolve_turn t a b).1.state.p1_hp = t.state.p1_hp - 1 ∧
      (resolve_turn t a b).1.state.p2_hp = t.state.p2_hp) ∨
    ((resolve_turn t a b).1.state.p1_hp = t.state.p1_hp ∧
      (resolve_turn t a b).1.state.p2_hp = t.state.p2_hp - 1) := by
  have hhp := resolve_turn_hp t a b
  rcases apply_rules_delta_cases t.game_mode (GAME_MODES t.game_mode).debuffs a b
    with h | h | h
  · exact Or.inl ⟨by rw [hhp.1, h.1]; omega, by rw [hhp.2, h.2]; omega⟩
  · exact Or.inr (Or.inl ⟨by rw [hhp.1, h.1]; omega, by rw [hhp.2, h.2]; omega⟩)
  · exact Or.inr (Or.inr ⟨by rw [hhp.1, h.1]; omega, by rw [hhp.2, h.2]; omega⟩)

end Fencing
